import Mathlib

/-!
Verification of the echocardiogram simulator's position-to-view resolution
engine and quiz state machine, as a shallow embedding of the JavaScript
sources.  Numbers that the code only compares (screen coordinates, matrix
entries) are modelled as rationals; angles fed to trigonometry are modelled
as reals.  Each definition cites the source file and lines it embeds.
-/

namespace EchoSim

/-! ## Data model (src/imagedata.js) -/

/-- Tail direction of the probe, the strings `'up'` / `'down'` in the source. -/
inductive Tail
  | up
  | down
deriving DecidableEq, Repr

/-- One probe orientation entry of `cellOrientationMap` (src/imagedata.js lines 44-53). -/
structure Variant where
  angle : Int
  tail : Tail
  view : String
deriving DecidableEq, Repr

/-- The static `cellOrientationMap` object (src/imagedata.js lines 44-53).
The default `[]` models the `cellOrientationMap[pos] || []` lookup at
src/unnamed/part_004 line 126: any position outside 1..4 has no views. -/
def cellOrientationMap (pos : Nat) : List Variant :=
  if pos = 1 then [⟨0, Tail.up, "Suprasternal Notch"⟩]
  else if pos = 2 then
    [⟨30, Tail.up, "Parasternal Short-axis MV"⟩,
     ⟨30, Tail.down, "Parasternal Short-axis AV"⟩,
     ⟨300, Tail.up, "Parasternal Long-axis"⟩]
  else if pos = 3 then [⟨90, Tail.down, "Subcostal 4-chamber"⟩]
  else if pos = 4 then [⟨90, Tail.down, "Apical 4-chamber"⟩]
  else []

/-- One quiz question (src/imagedata.js lines 123-160). -/
structure Question where
  question : String
  key : String
  correctPosition : Nat
  correctAnswer : String
  correctImage : String
deriving DecidableEq, Repr

/-- The static `quizData` array (src/imagedata.js lines 123-160). -/
def quizData : List Question :=
  [⟨"In parasternal long axis view (PLAX), where is the right ventricle?",
    "300_up", 2, "G", "Echo_Images/answer/Q1_ans.png"⟩,
   ⟨"In parasternal short axis view (PSAX), where is the aortic valve?",
    "30_down", 2, "B", "Echo_Images/answer/Q2_ans.png"⟩,
   ⟨"In suprasternal notch view, where is the main pulmonary artery?",
    "0_up", 1, "D", "Echo_Images/answer/Q3_ans.png"⟩,
   ⟨"In apical 4-chamber view (A4C), where is the left atrium?",
    "90_down", 4, "F", "Echo_Images/answer/Q4_ans.png"⟩,
   ⟨"In subcostal 4-chamber view (S4C), where is the left ventricle?",
    "90_down", 3, "C", "Echo_Images/answer/Q5_ans.png"⟩]

/-! ## Zone resolver (src/unnamed/part_004 lines 96-106) -/

/-- An axis-aligned screen rectangle, as returned by `getBoundingClientRect`. -/
structure Rect where
  left : ℚ
  right : ℚ
  top : ℚ
  bottom : ℚ
deriving DecidableEq, Repr

/-- Inclusive containment test of the cell-matching predicate
(src/unnamed/part_004 lines 100-106): all four comparisons are non-strict. -/
def rectContains (b : Rect) (x y : ℚ) : Bool :=
  decide (x ≥ b.left) && decide (x ≤ b.right) &&
  decide (y ≥ b.top) && decide (y ≤ b.bottom)

/-- Strict interior test, used only to state the specification's
"strictly inside" wording; not part of the source. -/
def strictlyInside (b : Rect) (x y : ℚ) : Bool :=
  decide (x > b.left) && decide (x < b.right) &&
  decide (y > b.top) && decide (y < b.bottom)

/-- The zone resolver `Array.from(cells).find(...)` of `updateImagePreview`
(src/unnamed/part_004 lines 100-106): each cell carries its `dataset.pos`
zone number and its bounding rectangle; the first containing cell wins. -/
def findCell (cells : List (Nat × Rect)) (x y : ℚ) : Option Nat :=
  (cells.find? fun c => rectContains c.2 x y).map Prod.fst

/-! ## Mutable session state (src/unnamed/part_004 lines 55-70 and the
display elements it writes) -/

/-- The module-level mutable variables of the simulator, together with the
text contents of the orientation display elements they drive. -/
structure GameState where
  currentQuestionIndex : Nat
  score : Nat
  sweepDeg : Int
  tailPosition : Tail
  lastCellPos : Option Nat
  currentViewIndex : Nat
  isSimulatorActive : Bool
  isFeedbackActive : Bool
  isSandBoxActive : Bool
  rotationDisplay : String
  tailDisplay : String
  viewDisplay : String
  partDisplay : String
deriving DecidableEq, Repr

/-- The initial values of the module-level variables
(src/unnamed/part_004 lines 55-70); display texts start empty. -/
def initialState : GameState :=
  ⟨0, 0, 0, Tail.up, none, 0, false, false, false, "", "", "", ""⟩

/-- The hour labels of `degreesToClock` (src/unnamed/part_000 lines 86-90). -/
def clockLabels : List String :=
  ["12 o\x27clock", "1 o\x27clock", "2 o\x27clock", "3 o\x27clock",
   "4 o\x27clock", "5 o\x27clock", "6 o\x27clock", "7 o\x27clock",
   "8 o\x27clock", "9 o\x27clock", "10 o\x27clock", "11 o\x27clock"]

/-- JavaScript remainder `%` on integers truncates toward zero. -/
def jsRem (a b : Int) : Int :=
  Int.tmod a b

/-- The `degreesToClock` utility (src/unnamed/part_000 lines 83-92).
`Math.round(normalized / 30)` rounds half up, which on the non-negative
`normalized` equals floor division `(normalized + 15) / 30`. -/
def degreesToClock (angle : Int) : String :=
  let normalized := jsRem (jsRem angle 360 + 360) 360
  let hourIndex := jsRem ((normalized + 15) / 30) 12
  clockLabels.getD hourIndex.toNat ""

/-- The `resetProbe` routine (src/unnamed/part_001 lines 89-98): default
orientation and idle display texts.  It touches neither `lastCellPos` nor
`currentViewIndex` nor any quiz field. -/
def resetProbe (st : GameState) : GameState :=
  { st with
    sweepDeg := 90
    tailPosition := Tail.down
    rotationDisplay := "3 o\x27clock"
    viewDisplay := "-"
    tailDisplay := "Tail Down" }

/-- State effect of `updateImagePreview` (src/unnamed/part_004 lines 95-254),
given the cell rectangles and the probe center `(px, py)` read from the DOM.
Line 110 blanks the part display before the branch; the no-match branch
(lines 117-122) calls `resetProbe`; an empty view list (lines 128-132)
returns early; lines 135-138 reset `currentViewIndex` on a zone change;
lines 155-168 set the orientation state and display texts from
`views[currentViewIndex % views.length]`; lines 171-177 are the PLAX
neutral-tail display exception.  Purely visual effects (image injection,
button hiding, rope refresh) have no state to track here. -/
def updateImagePreview (cells : List (Nat × Rect)) (px py : ℚ)
    (st0 : GameState) : GameState :=
  let st := { st0 with partDisplay := "-" }
  match findCell cells px py with
  | none => resetProbe st
  | some pos =>
    let views := cellOrientationMap pos
    if views.length = 0 then st
    else
      let st1 := if st.lastCellPos ≠ some pos
        then { st with currentViewIndex := 0, lastCellPos := some pos }
        else st
      let v := views.getD (st1.currentViewIndex % views.length) ⟨0, Tail.up, ""⟩
      let st2 := { st1 with
        sweepDeg := v.angle
        tailPosition := v.tail
        rotationDisplay := degreesToClock v.angle
        tailDisplay := if v.tail = Tail.up then "Tail Up" else "Tail Down"
        viewDisplay := v.view }
      if pos = 2 ∧ st2.currentViewIndex % views.length = 2
      then { st2 with tailDisplay := "Tail Neutral" }
      else st2

/-- The toggle-button visibility guard (src/unnamed/part_004 line 141),
with JavaScript operator precedence:
`(views.length > 1 && isSimulatorActive) || isSandBoxActive`. -/
def toggleVisible (viewsLen : Nat) (isSimulatorActive isSandBoxActive : Bool) : Bool :=
  (decide (viewsLen > 1) && isSimulatorActive) || isSandBoxActive

/-- A marker click event: the zone `pos` captured when the circle was
rendered, plus the circle datum's `answer` tag and `text` label. -/
structure Click where
  pos : Nat
  ans : String
  text : String
deriving DecidableEq, Repr

/-- State effect of the circle click handler (src/unnamed/part_004
lines 203-244).  Sandbox branch (lines 205-218): clears the mode flags and
shows the anatomical text.  Quiz branch (lines 220-243): both feedback
branches are guarded by `!isFeedbackActive`, only the correct one
increments `score`; lines 241-242 then unconditionally clear
`isSimulatorActive` and set `isFeedbackActive`.  When
`quizData[currentQuestionIndex]` is undefined the JavaScript handler
throws on its first property access, before any state mutation, so that
case leaves the state unchanged. -/
def circleClick (pos : Nat) (answer text : String) (st : GameState) : GameState :=
  if st.isSandBoxActive then
    { st with
      isSimulatorActive := false
      isFeedbackActive := false
      partDisplay := text }
  else
    match quizData.get? st.currentQuestionIndex with
    | none => st
    | some qData =>
      let st1 :=
        if pos = qData.correctPosition ∧ answer = qData.correctAnswer ∧
            st.isFeedbackActive = false
        then { st with score := st.score + 1 }
        else st
      { st1 with isSimulatorActive := false, isFeedbackActive := true }

/-- State effect of the `nextQuestionButton` click handler
(src/feedback.js lines 55-89): clear the feedback flag, advance the
question index by one; both the next-question and the end-of-quiz branch
clear `isSimulatorActive`. -/
def nextQuestionClick (st : GameState) : GameState :=
  { st with
    isFeedbackActive := false
    currentQuestionIndex := st.currentQuestionIndex + 1
    isSimulatorActive := false }

/-- The final score text written by the end-of-quiz branch
(src/feedback.js line 74). -/
def finalScoreText (st : GameState) : String :=
  toString st.score ++ " out of " ++ toString quizData.length

/-- State effect of the `toggleButton` click handler (src/unnamed/part_004
lines 257-268): advance `currentViewIndex` modulo the remembered zone's
view count, then re-run `updateImagePreview` against the current probe
position.  With an empty view list JavaScript would produce `NaN`
(`% 0`); every theorem below assumes a valid remembered zone, where the
button can be visible at all. -/
def toggleClick (cells : List (Nat × Rect)) (px py : ℚ)
    (st : GameState) : GameState :=
  let views := match st.lastCellPos with
    | none => []
    | some p => cellOrientationMap p
  let st1 := { st with currentViewIndex := (st.currentViewIndex + 1) % views.length }
  updateImagePreview cells px py st1

/-- State effect of the `restartButton` click handler (src/unnamed/part_000
lines 180-199).  The subsequent `loadQuestion()` re-runs
`updateImagePreview` against the reset probe position; that follow-up is a
separate `update` operation in the operation model below. -/
def restartClick (st : GameState) : GameState :=
  { st with
    currentQuestionIndex := 0
    score := 0
    sweepDeg := 90
    tailPosition := Tail.down
    currentViewIndex := 0
    lastCellPos := none }

/-- State effect of the `startButton` click handler (src/unnamed/part_000
lines 118-125). -/
def startClick (st : GameState) : GameState :=
  { st with currentQuestionIndex := 0, score := 0 }

/-- The quiz progression states of the specification, read off the code
state: a question is pending while the index is in range, feedback is
shown while `isFeedbackActive`, and the quiz is completed once the index
has run past the question list. -/
inductive QuizPhase
  | awaitingAnswer
  | feedbackShown
  | completed
deriving DecidableEq, Repr

/-- Abstraction map from the code state to the specification's quiz
progression states. -/
def quizPhase (st : GameState) : QuizPhase :=
  if st.currentQuestionIndex < quizData.length then
    (if st.isFeedbackActive then QuizPhase.feedbackShown
     else QuizPhase.awaitingAnswer)
  else QuizPhase.completed

/-- Fold a list of marker clicks through the circle click handler. -/
def applyClicks (clicks : List Click) (st : GameState) : GameState :=
  clicks.foldl (fun s c => circleClick c.pos c.ans c.text s) st

/-- Score contributed by a question's click sequence: 1 exactly when its
first click carries the question's correct zone and answer tag. -/
def firstClickMatched (q : Question) (clicks : List Click) : Bool :=
  match clicks with
  | [] => false
  | c :: _ => decide (c.pos = q.correctPosition ∧ c.ans = q.correctAnswer)

/-- One full question round: the question's clicks, then the
next-question (Advance) command. -/
def runQuestion (clicks : List Click) (st : GameState) : GameState :=
  nextQuestionClick (applyClicks clicks st)

/-- A full quiz run: one click list per question, in order. -/
def runQuiz (clickss : List (List Click)) (st : GameState) : GameState :=
  clickss.foldl (fun s cs => runQuestion cs s) st

/-- Number of questions, starting at index `i`, whose first accepted click
matched the question's correct zone and answer tag. -/
def countMatchedFrom (i : Nat) (clickss : List (List Click)) : Nat :=
  match clickss with
  | [] => 0
  | cs :: rest =>
    (match quizData.get? i with
     | none => 0
     | some q => if firstClickMatched q cs then 1 else 0) +
    countMatchedFrom (i + 1) rest

/-- The view-state operations of the claims: a position update (pointer
move), a cycle (toggle-button click, which itself re-runs the position
update), and a restart. -/
inductive GameOp
  | update (cells : List (Nat × Rect)) (px py : ℚ)
  | cycle (cells : List (Nat × Rect)) (px py : ℚ)
  | restart

/-- Dispatch of one operation to its handler. -/
def applyOp (op : GameOp) (st : GameState) : GameState :=
  match op with
  | GameOp.update cells px py => updateImagePreview cells px py st
  | GameOp.cycle cells px py => toggleClick cells px py st
  | GameOp.restart => restartClick st

/-- View-state invariant: whenever a zone is remembered, the view index is
a valid index into that zone's variant list. -/
def ViewInv (st : GameState) : Prop :=
  match st.lastCellPos with
  | none => True
  | some p => st.currentViewIndex < (cellOrientationMap p).length

/-- Precondition of the cycle operation: the toggle button is only
reachable while the remembered zone has a non-empty variant list. -/
def cyclePre (op : GameOp) (st : GameState) : Prop :=
  ∀ cells px py, op = GameOp.cycle cells px py →
    ∃ p, st.lastCellPos = some p ∧ cellOrientationMap p ≠ []

/-! ## SVG coordinate conversion (src/unnamed/part_003 lines 112-125) -/

/-- An SVG affine screen transform, the six entries of an `SVGMatrix`:
it maps `(x, y)` to `(a x + c y + e, b x + d y + f)`. -/
structure SvgMatrix where
  a : ℚ
  b : ℚ
  c : ℚ
  d : ℚ
  e : ℚ
  f : ℚ
deriving DecidableEq, Repr

/-- The action of `SVGPoint.matrixTransform`. -/
def matrixTransform (m : SvgMatrix) (x y : ℚ) : ℚ × ℚ :=
  (m.a * x + m.c * y + m.e, m.b * x + m.d * y + m.f)

/-- Determinant of the linear part of an `SVGMatrix`. -/
def matrixDet (m : SvgMatrix) : ℚ :=
  m.a * m.d - m.b * m.c

/-- The behaviour of `SVGMatrix.inverse()`: the standard affine inverse,
or an exception (modelled as `none`) when the matrix is singular. -/
def matrixInverse (m : SvgMatrix) : Option SvgMatrix :=
  let det := matrixDet m
  if det = 0 then none
  else some ⟨m.d / det, -m.b / det, -m.c / det, m.a / det,
             (m.c * m.f - m.d * m.e) / det, (m.b * m.e - m.a * m.f) / det⟩

/-- The `toSvgCoords` conversion (src/unnamed/part_003 lines 112-125),
given the drawing surface's current screen transform, `none` when
`svg.getScreenCTM()` is unavailable.  In that case the function warns
(second component `true`) and returns the input unchanged (lines 119-122);
otherwise it applies the inverse of the screen transform (line 124).  An
outer `none` models the exception `SVGMatrix.inverse()` would throw on a
singular transform. -/
def toSvgCoords (screenCTM : Option SvgMatrix) (x y : ℚ) :
    Option ((ℚ × ℚ) × Bool) :=
  match screenCTM with
  | none => some ((x, y), true)
  | some m =>
    match matrixInverse m with
    | none => none
    | some mi => some (matrixTransform mi x y, false)

/-! ## Connector tail anchor (src/unnamed/part_003 lines 87-109) -/

/-- The `getTailAnchor` computation (src/unnamed/part_003 lines 87-109),
given the probe center `(cx, cy)` in place of `getProbeCenter(probeEl)`.
The radius is half the probe width (`160 / 2`); tail `'down'` places the
anchor at `angle`, tail `'up'` at `angle + 180` degrees; view index 2 (the
reserved neutral PLAX variant) collapses the anchor to the center. -/
noncomputable def getTailAnchor (cx cy : ℝ) (angleDeg : ℝ) (tailDir : Tail)
    (currentViewIndex : Nat) : ℝ × ℝ :=
  let r : ℝ := 160 / 2
  let theta := angleDeg * Real.pi / 180
  let offsetAngle := if tailDir = Tail.down then theta else theta + Real.pi
  if currentViewIndex = 2 then (cx, cy)
  else (cx + r * Real.cos offsetAngle, cy + r * Real.sin offsetAngle)

/-! ## Helper lemmas about the position-update handler -/

theorem update_none_eq (cells : List (Nat × Rect)) (px py : ℚ) (st : GameState)
    (h : findCell cells px py = none) :
    updateImagePreview cells px py st = resetProbe { st with partDisplay := "-" } := by
  simp only [updateImagePreview, h]

theorem update_some_empty_eq (cells : List (Nat × Rect)) (px py : ℚ)
    (st : GameState) (pos : Nat) (h : findCell cells px py = some pos)
    (hv : cellOrientationMap pos = []) :
    updateImagePreview cells px py st = { st with partDisplay := "-" } := by
  simp only [updateImagePreview, h, hv, List.length_nil, if_pos]

theorem update_some_last (cells : List (Nat × Rect)) (px py : ℚ)
    (st : GameState) (pos : Nat) (h : findCell cells px py = some pos)
    (hv : cellOrientationMap pos ≠ []) :
    (updateImagePreview cells px py st).lastCellPos = some pos := by
  have hlen : (cellOrientationMap pos).length ≠ 0 := by
    simpa [List.length_eq_zero] using hv
  simp only [updateImagePreview, h, if_neg hlen]
  by_cases hlast : st.lastCellPos ≠ some pos
  · simp [hlast]
  · simp [hlast]
    split <;> simp_all

theorem update_some_index_new (cells : List (Nat × Rect)) (px py : ℚ)
    (st : GameState) (pos : Nat) (h : findCell cells px py = some pos)
    (hv : cellOrientationMap pos ≠ []) (hne : st.lastCellPos ≠ some pos) :
    (updateImagePreview cells px py st).currentViewIndex = 0 := by
  have hlen : (cellOrientationMap pos).length ≠ 0 := by
    simpa [List.length_eq_zero] using hv
  simp only [updateImagePreview, h, if_neg hlen]
  simp only [if_pos (by simpa using hne)]
  split <;> simp

theorem update_some_index_same (cells : List (Nat × Rect)) (px py : ℚ)
    (st : GameState) (pos : Nat) (h : findCell cells px py = some pos)
    (hv : cellOrientationMap pos ≠ []) (hsame : st.lastCellPos = some pos) :
    (updateImagePreview cells px py st).currentViewIndex = st.currentViewIndex := by
  have hlen : (cellOrientationMap pos).length ≠ 0 := by
    simpa [List.length_eq_zero] using hv
  simp only [updateImagePreview, h, if_neg hlen]
  simp only [hsame, ne_eq, not_true_eq_false, if_neg, ite_false]
  split <;> simp [hsame]

theorem update_quiz_frame (cells : List (Nat × Rect)) (px py : ℚ)
    (st : GameState) :
    (updateImagePreview cells px py st).score = st.score ∧
    (updateImagePreview cells px py st).currentQuestionIndex = st.currentQuestionIndex ∧
    (updateImagePreview cells px py st).isFeedbackActive = st.isFeedbackActive ∧
    (updateImagePreview cells px py st).isSandBoxActive = st.isSandBoxActive ∧
    (updateImagePreview cells px py st).isSimulatorActive = st.isSimulatorActive := by
  simp only [updateImagePreview]
  split
  · simp [resetProbe]
  · split
    · simp
    · split <;> split <;> simp_all [resetProbe]

/-! ## Helper lemmas about the quiz progression machine -/

theorem circleClick_fb_true (pos : Nat) (a t : String) (st : GameState)
    (hsb : st.isSandBoxActive = false) (hfb : st.isFeedbackActive = true) :
    (circleClick pos a t st).score = st.score ∧
    (circleClick pos a t st).isFeedbackActive = true ∧
    (circleClick pos a t st).currentQuestionIndex = st.currentQuestionIndex ∧
    (circleClick pos a t st).isSandBoxActive = false := by
  simp only [circleClick, hsb, Bool.false_eq_true, if_false]
  cases hq : quizData.get? st.currentQuestionIndex <;> simp [hfb, hsb]

theorem circleClick_fb_false (pos : Nat) (a t : String) (st : GameState)
    (q : Question) (hsb : st.isSandBoxActive = false)
    (hq : quizData.get? st.currentQuestionIndex = some q)
    (hfb : st.isFeedbackActive = false) :
    (circleClick pos a t st).score =
      st.score + (if pos = q.correctPosition ∧ a = q.correctAnswer then 1 else 0) ∧
    (circleClick pos a t st).isFeedbackActive = true ∧
    (circleClick pos a t st).currentQuestionIndex = st.currentQuestionIndex ∧
    (circleClick pos a t st).isSandBoxActive = false := by
  simp only [circleClick, hsb, Bool.false_eq_true, if_false, hq]
  by_cases hc : pos = q.correctPosition ∧ a = q.correctAnswer <;>
    simp [hc, hfb, hsb]

theorem applyClicks_fb_true (clicks : List Click) (st : GameState)
    (hsb : st.isSandBoxActive = false) (hfb : st.isFeedbackActive = true) :
    (applyClicks clicks st).score = st.score ∧
    (applyClicks clicks st).isFeedbackActive = true ∧
    (applyClicks clicks st).currentQuestionIndex = st.currentQuestionIndex ∧
    (applyClicks clicks st).isSandBoxActive = false := by
  induction clicks generalizing st with
  | nil => simpa [applyClicks] using ⟨hfb, hsb⟩
  | cons c rest ih =>
    have h1 := circleClick_fb_true c.pos c.ans c.text st hsb hfb
    have h2 := ih (circleClick c.pos c.ans c.text st) h1.2.2.2 h1.2.1
    simp only [applyClicks, List.foldl_cons] at h2 ⊢
    exact ⟨h2.1.trans h1.1, h2.2.1, h2.2.2.1.trans h1.2.2.1, h2.2.2.2⟩

theorem applyClicks_awaiting (clicks : List Click) (st : GameState)
    (q : Question) (hsb : st.isSandBoxActive = false)
    (hq : quizData.get? st.currentQuestionIndex = some q)
    (hfb : st.isFeedbackActive = false) :
    (applyClicks clicks st).score =
      st.score + (if firstClickMatched q clicks then 1 else 0) ∧
    (applyClicks clicks st).currentQuestionIndex = st.currentQuestionIndex ∧
    (applyClicks clicks st).isSandBoxActive = false := by
  cases clicks with
  | nil => simp [applyClicks, firstClickMatched, hsb]
  | cons c rest =>
    have h1 := circleClick_fb_false c.pos c.ans c.text st q hsb hq hfb
    have h2 := applyClicks_fb_true rest (circleClick c.pos c.ans c.text st)
      h1.2.2.2 h1.2.1
    simp only [applyClicks, List.foldl_cons] at h2 ⊢
    refine ⟨h2.1.trans ?_, h2.2.2.1.trans h1.2.2.1, h2.2.2.2⟩
    rw [h1.1]
    simp [firstClickMatched]

theorem applyClicks_noQuestion (clicks : List Click) (st : GameState)
    (hsb : st.isSandBoxActive = false)
    (hq : quizData.get? st.currentQuestionIndex = none) :
    applyClicks clicks st = st := by
  induction clicks generalizing st with
  | nil => simp [applyClicks]
  | cons c rest ih =>
    have hcc : circleClick c.pos c.ans c.text st = st := by
      have hq2 : quizData[st.currentQuestionIndex]? = none := by
        simpa using hq
      simp [circleClick, hsb, hq2]
    simp only [applyClicks, List.foldl_cons, hcc]
    exact ih st hsb hq

theorem nextQuestionClick_fields (st : GameState) :
    (nextQuestionClick st).currentQuestionIndex = st.currentQuestionIndex + 1 ∧
    (nextQuestionClick st).score = st.score ∧
    (nextQuestionClick st).isFeedbackActive = false ∧
    (nextQuestionClick st).isSandBoxActive = st.isSandBoxActive := by
  simp [nextQuestionClick]

theorem runQuiz_spec (clickss : List (List Click)) (st : GameState)
    (hsb : st.isSandBoxActive = false) (hfb : st.isFeedbackActive = false) :
    (runQuiz clickss st).score =
      st.score + countMatchedFrom st.currentQuestionIndex clickss ∧
    (runQuiz clickss st).currentQuestionIndex =
      st.currentQuestionIndex + clickss.length ∧
    (runQuiz clickss st).isSandBoxActive = false ∧
    (runQuiz clickss st).isFeedbackActive = false := by
  induction clickss generalizing st with
  | nil => simpa [runQuiz, countMatchedFrom] using ⟨hsb, hfb⟩
  | cons cs rest ih =>
    have hrq : (runQuestion cs st).score =
        st.score + (match quizData.get? st.currentQuestionIndex with
          | none => 0
          | some q => if firstClickMatched q cs then 1 else 0) ∧
        (runQuestion cs st).currentQuestionIndex = st.currentQuestionIndex + 1 ∧
        (runQuestion cs st).isSandBoxActive = false ∧
        (runQuestion cs st).isFeedbackActive = false := by
      cases hq : quizData.get? st.currentQuestionIndex with
      | none =>
        rw [runQuestion, applyClicks_noQuestion cs st hsb hq]
        simp [nextQuestionClick, hsb]
      | some q =>
        have h1 := applyClicks_awaiting cs st q hsb hq hfb
        have h2 := nextQuestionClick_fields (applyClicks cs st)
        rw [runQuestion]
        refine ⟨h2.2.1.trans h1.1, ?_, ?_, h2.2.2.1⟩
        · rw [h2.1, h1.2.1]
        · rw [h2.2.2.2, h1.2.2]
    have ih2 := ih (runQuestion cs st) hrq.2.2.1 hrq.2.2.2
    simp only [runQuiz, List.foldl_cons] at ih2 ⊢
    refine ⟨?_, ?_, ih2.2.2.1, ih2.2.2.2⟩
    · rw [ih2.1, hrq.1, hrq.2.1, countMatchedFrom]
      omega
    · rw [ih2.2.1, hrq.2.1, List.length_cons]
      omega

/-! ## Claim theorems -/

/-- C1: once feedback is active (set by the first marker click of a
question), further marker clicks leave `score` unchanged and keep the
feedback flag set; starting from the awaiting state, any sequence of
marker clicks on the question increments `score` by at most 1, and the
increment is exactly 1 precisely when the first click carries the
question's `correctPosition` zone and `correctAnswer` tag, else 0. -/
theorem quiz_click_scores_at_most_once
    (st : GameState) (q : Question) (clicks : List Click)
    (hsb : st.isSandBoxActive = false)
    (hq : quizData.get? st.currentQuestionIndex = some q) :
    (st.isFeedbackActive = true →
       (applyClicks clicks st).score = st.score ∧
       (applyClicks clicks st).isFeedbackActive = true) ∧
    (st.isFeedbackActive = false →
       (applyClicks clicks st).score ≤ st.score + 1 ∧
       (applyClicks clicks st).score =
         st.score + (if firstClickMatched q clicks then 1 else 0)) := by
  constructor
  · intro hfb
    have h := applyClicks_fb_true clicks st hsb hfb
    exact ⟨h.1, h.2.1⟩
  · intro hfb
    have h := applyClicks_awaiting clicks st q hsb hq hfb
    refine ⟨?_, h.1⟩
    rw [h.1]
    split <;> omega

/-- Witness for C1 at the first question of the quiz: clicking the
correct marker twice scores exactly one point. -/
theorem quiz_click_scores_at_most_once_witness :
    (applyClicks [⟨2, "G", "Right Ventricle"⟩, ⟨2, "G", "Right Ventricle"⟩]
        (startClick initialState)).score ≤ (startClick initialState).score + 1 := by
  exact ((quiz_click_scores_at_most_once (startClick initialState)
    (quizData.getD 0 ⟨"", "", 0, "", ""⟩)
    [⟨2, "G", "Right Ventricle"⟩, ⟨2, "G", "Right Ventricle"⟩]
    rfl rfl).2 rfl).1

/-- C2: the Advance command increments `currentQuestionIndex` by exactly
one; if a question exists at the new index the machine is in
AwaitingAnswer, otherwise in Completed; a full quiz run reaches Completed
exactly at the final Advance, with `score` equal to the number of
questions whose first accepted click matched (correctPosition,
correctAnswer) and the final score display reading that count out of the
total number of questions. -/
theorem advance_and_completion :
    (∀ st : GameState,
       (nextQuestionClick st).currentQuestionIndex = st.currentQuestionIndex + 1) ∧
    (∀ st : GameState, st.currentQuestionIndex + 1 < quizData.length →
       quizPhase (nextQuestionClick st) = QuizPhase.awaitingAnswer) ∧
    (∀ st : GameState, quizData.length ≤ st.currentQuestionIndex + 1 →
       quizPhase (nextQuestionClick st) = QuizPhase.completed) ∧
    (∀ clickss : List (List Click), clickss.length = quizData.length →
       (∀ k, k ≤ clickss.length →
          (quizPhase (runQuiz (clickss.take k) (startClick initialState)) =
              QuizPhase.completed ↔ k = quizData.length)) ∧
       (runQuiz clickss (startClick initialState)).score =
          countMatchedFrom 0 clickss ∧
       finalScoreText (runQuiz clickss (startClick initialState)) =
          toString (countMatchedFrom 0 clickss) ++ " out of " ++
            toString quizData.length) := by
  refine ⟨?_, ?_, ?_, ?_⟩
  · intro st
    simp [nextQuestionClick]
  · intro st h
    simp [quizPhase, nextQuestionClick, h]
  · intro st h
    have h2 : ¬ (st.currentQuestionIndex + 1 < quizData.length) := by omega
    simp [quizPhase, nextQuestionClick, h2]
  · intro clickss hlen
    refine ⟨?_, ?_, ?_⟩
    · intro k hk
      have h := runQuiz_spec (clickss.take k) (startClick initialState) rfl rfl
      have hidx : (runQuiz (clickss.take k)
          (startClick initialState)).currentQuestionIndex = k := by
        rw [h.2.1]
        simp only [startClick, initialState]
        rw [List.length_take]
        omega
      simp only [quizPhase, hidx, h.2.2.2]
      rw [hlen] at hk
      constructor
      · intro hc
        by_contra hne
        have hklt : k < quizData.length := by omega
        simp [hklt] at hc
      · intro he
        subst he
        simp
    · have h := runQuiz_spec clickss (startClick initialState) rfl rfl
      rw [h.1]
      simp [startClick, initialState]
    · have h := runQuiz_spec clickss (startClick initialState) rfl rfl
      rw [finalScoreText, h.1]
      simp [startClick, initialState]

/-- Witness for C2: a full run with every question answered correctly on
the first click ends Completed with the display reading "5 out of 5". -/
theorem advance_and_completion_witness :
    (runQuiz [[⟨2, "G", "a"⟩], [⟨2, "B", "b"⟩], [⟨1, "D", "c"⟩],
        [⟨4, "F", "d"⟩], [⟨3, "C", "e"⟩]] (startClick initialState)).score =
      countMatchedFrom 0 [[⟨2, "G", "a"⟩], [⟨2, "B", "b"⟩], [⟨1, "D", "c"⟩],
        [⟨4, "F", "d"⟩], [⟨3, "C", "e"⟩]] ∧
    countMatchedFrom 0 [[⟨2, "G", "a"⟩], [⟨2, "B", "b"⟩], [⟨1, "D", "c"⟩],
        [⟨4, "F", "d"⟩], [⟨3, "C", "e"⟩]] = 5 := by
  refine ⟨(advance_and_completion.2.2.2 [[⟨2, "G", "a"⟩], [⟨2, "B", "b"⟩],
    [⟨1, "D", "c"⟩], [⟨4, "F", "d"⟩], [⟨3, "C", "e"⟩]] (by decide)).2.1, by decide⟩

/-- C3 counterexample: the point (10, 5) is strictly inside exactly one
rectangle (zone 2's), merely on the boundary of zone 1's, yet the
resolver's inclusive containment makes it return zone 1, not zone 2. -/
theorem findCell_strict_counterexample :
    strictlyInside ⟨5, 20, 0, 10⟩ 10 5 = true ∧
    strictlyInside ⟨0, 10, 0, 10⟩ 10 5 = false ∧
    findCell [(1, ⟨0, 10, 0, 10⟩), (2, ⟨5, 20, 0, 10⟩)] 10 5 = some 1 := by
  decide

/-- C3 (amended): with containment taken as the code's inclusive bounds,
a point contained in exactly one rectangle resolves to that zone, a point
contained in none resolves to none, and with overlapping rectangles the
first containing zone in definition order wins. -/
theorem findCell_resolution (x y : ℚ) :
    (∀ (l1 l2 : List (Nat × Rect)) (p : Nat × Rect),
       (∀ c ∈ l1 ++ l2, rectContains c.2 x y = false) →
       rectContains p.2 x y = true →
       findCell (l1 ++ p :: l2) x y = some p.1) ∧
    (∀ cells : List (Nat × Rect),
       (∀ c ∈ cells, rectContains c.2 x y = false) →
       findCell cells x y = none) ∧
    (∀ (l1 l2 : List (Nat × Rect)) (p : Nat × Rect),
       (∀ c ∈ l1, rectContains c.2 x y = false) →
       rectContains p.2 x y = true →
       findCell (l1 ++ p :: l2) x y = some p.1) := by
  have hfirst : ∀ (l1 l2 : List (Nat × Rect)) (p : Nat × Rect),
      (∀ c ∈ l1, rectContains c.2 x y = false) →
      rectContains p.2 x y = true →
      findCell (l1 ++ p :: l2) x y = some p.1 := by
    intro l1
    induction l1 with
    | nil =>
      intro l2 p _ hp
      simp [findCell, List.find?_cons, hp]
    | cons c cs ih =>
      intro l2 p hall hp
      have hc : rectContains c.2 x y = false := hall c (by simp)
      have hrest : ∀ d ∈ cs, rectContains d.2 x y = false :=
        fun d hd => hall d (by simp [hd])
      have hstep : findCell ((c :: cs) ++ p :: l2) x y =
          findCell (cs ++ p :: l2) x y := by
        simp [findCell, List.find?_cons, hc]
      rw [hstep]
      exact ih l2 p hrest hp
  refine ⟨?_, ?_, hfirst⟩
  · intro l1 l2 p hall hp
    exact hfirst l1 l2 p (fun c hc => hall c (by simp [hc])) hp
  · intro cells hall
    have : cells.find? (fun c => rectContains c.2 x y) = none := by
      rw [List.find?_eq_none]
      intro c hc
      simp [hall c hc]
    simp [findCell, this]

/-- Witness for C3 (amended): a point inside only the second rectangle,
touching neither boundary of the first, resolves to zone 2. -/
theorem findCell_resolution_witness :
    findCell [(1, ⟨0, 10, 0, 10⟩), (2, ⟨30, 40, 0, 10⟩)] 35 5 = some 2 := by
  exact (findCell_resolution 35 5).1 [(1, ⟨0, 10, 0, 10⟩)] []
    (2, ⟨30, 40, 0, 10⟩) (by decide) (by decide)

/-- C4: a position update resolving to a zone with variants and different
from the remembered zone enters that zone at variant index 0; resolving to
the remembered zone preserves the variant index. -/
theorem update_zone_transition
    (cells : List (Nat × Rect)) (px py : ℚ) (st : GameState) (pos : Nat)
    (hfc : findCell cells px py = some pos)
    (hv : cellOrientationMap pos ≠ []) :
    (st.lastCellPos ≠ some pos →
       (updateImagePreview cells px py st).lastCellPos = some pos ∧
       (updateImagePreview cells px py st).currentViewIndex = 0) ∧
    (st.lastCellPos = some pos →
       (updateImagePreview cells px py st).lastCellPos = some pos ∧
       (updateImagePreview cells px py st).currentViewIndex =
         st.currentViewIndex) := by
  constructor
  · intro hne
    exact ⟨update_some_last cells px py st pos hfc hv,
      update_some_index_new cells px py st pos hfc hv hne⟩
  · intro hsame
    exact ⟨update_some_last cells px py st pos hfc hv,
      update_some_index_same cells px py st pos hfc hv hsame⟩

/-- Witness for C4: from the initial state (no remembered zone), an update
over zone 1 enters it at variant index 0. -/
theorem update_zone_transition_witness :
    (updateImagePreview [(1, ⟨0, 100, 0, 100⟩)] 50 50 initialState).lastCellPos
      = some 1 ∧
    (updateImagePreview [(1, ⟨0, 100, 0, 100⟩)] 50 50
      initialState).currentViewIndex = 0 := by
  exact (update_zone_transition [(1, ⟨0, 100, 0, 100⟩)] 50 50 initialState 1
    (by decide) (by decide)).1 (by decide)

theorem toggleClick_fixed (cells : List (Nat × Rect)) (px py : ℚ)
    (st : GameState) (p : Nat) (hlast : st.lastCellPos = some p)
    (hfc : findCell cells px py = some p)
    (hv : cellOrientationMap p ≠ []) :
    (toggleClick cells px py st).currentViewIndex =
      (st.currentViewIndex + 1) % (cellOrientationMap p).length ∧
    (toggleClick cells px py st).lastCellPos = some p := by
  have hbody : toggleClick cells px py st =
      updateImagePreview cells px py
        { st with currentViewIndex :=
            (st.currentViewIndex + 1) % (cellOrientationMap p).length } := by
    simp [toggleClick, hlast]
  rw [hbody]
  constructor
  · exact update_some_index_same cells px py _ p hfc hv hlast
  · exact update_some_last cells px py _ p hfc hv

theorem toggleClick_iter (cells : List (Nat × Rect)) (px py : ℚ) (p : Nat)
    (hvlen : 0 < (cellOrientationMap p).length) :
    ∀ (k : Nat) (st : GameState), st.lastCellPos = some p →
      findCell cells px py = some p →
      st.currentViewIndex < (cellOrientationMap p).length →
      ((toggleClick cells px py)^[k] st).currentViewIndex =
        (st.currentViewIndex + k) % (cellOrientationMap p).length ∧
      ((toggleClick cells px py)^[k] st).lastCellPos = some p := by
  intro k
  induction k with
  | zero =>
    intro st hlast _ hlt
    simpa using ⟨(Nat.mod_eq_of_lt hlt).symm, hlast⟩
  | succ n ih =>
    intro st hlast hfc hlt
    have hv : cellOrientationMap p ≠ [] := by
      intro he
      rw [he] at hvlen
      simp at hvlen
    have h1 := toggleClick_fixed cells px py st p hlast hfc hv
    have h2 := ih (toggleClick cells px py st) h1.2 hfc
      (by rw [h1.1]; exact Nat.mod_lt _ hvlen)
    rw [Function.iterate_succ_apply]
    refine ⟨?_, h2.2⟩
    rw [h2.1, h1.1, Nat.mod_add_mod]
    congr 1
    omega

/-- C5: the cycle command maps the variant index to
(index + 1) mod variantCount at the remembered zone; cycling
variantCount times at a fixed zone returns to the original index, and a
single cycle at a single-variant zone is a no-op on the index. -/
theorem cycle_closed_loop
    (cells : List (Nat × Rect)) (px py : ℚ) (st : GameState) (p : Nat)
    (hlast : st.lastCellPos = some p)
    (hfc : findCell cells px py = some p)
    (hlt : st.currentViewIndex < (cellOrientationMap p).length) :
    (toggleClick cells px py st).currentViewIndex =
      (st.currentViewIndex + 1) % (cellOrientationMap p).length ∧
    ((toggleClick cells px py)^[(cellOrientationMap p).length] st).currentViewIndex
      = st.currentViewIndex ∧
    ((cellOrientationMap p).length = 1 →
      (toggleClick cells px py st).currentViewIndex = st.currentViewIndex) := by
  have hvlen : 0 < (cellOrientationMap p).length := by omega
  have hv : cellOrientationMap p ≠ [] := by
    intro he
    rw [he] at hvlen
    simp at hvlen
  have h1 := toggleClick_fixed cells px py st p hlast hfc hv
  refine ⟨h1.1, ?_, ?_⟩
  · have h2 := (toggleClick_iter cells px py p hvlen
      (cellOrientationMap p).length st hlast hfc hlt).1
    rw [h2, Nat.add_mod_right, Nat.mod_eq_of_lt hlt]
  · intro hone
    rw [h1.1, hone, Nat.mod_one]
    omega

/-- Witness for C5 at zone 2 (three variants): one cycle advances the
index from 0 to 1. -/
theorem cycle_closed_loop_witness :
    (toggleClick [(2, ⟨0, 100, 0, 100⟩)] 50 50
      { initialState with lastCellPos := some 2 }).currentViewIndex =
      (0 + 1) % (cellOrientationMap 2).length := by
  exact (cycle_closed_loop [(2, ⟨0, 100, 0, 100⟩)] 50 50
    { initialState with lastCellPos := some 2 } 2 rfl (by decide) (by decide)).1

/-- C6: away from the reserved neutral view index 2, the tail anchors for
the two tail sides at the same angle sum to twice the probe center
coordinatewise (they are diametrically opposite), both lie on the probe's
bounding circle of radius 80, and the tail-up anchor equals the tail-down
anchor at angle + 180 degrees; at the neutral index the anchor collapses
to the probe center. -/
theorem tail_anchor_opposite (cx cy angleDeg : ℝ) (v : Nat) :
    (v ≠ 2 →
       (getTailAnchor cx cy angleDeg Tail.up v).1 +
         (getTailAnchor cx cy angleDeg Tail.down v).1 = 2 * cx ∧
       (getTailAnchor cx cy angleDeg Tail.up v).2 +
         (getTailAnchor cx cy angleDeg Tail.down v).2 = 2 * cy ∧
       (∀ t : Tail,
         ((getTailAnchor cx cy angleDeg t v).1 - cx) ^ 2 +
           ((getTailAnchor cx cy angleDeg t v).2 - cy) ^ 2 = 80 ^ 2) ∧
       getTailAnchor cx cy angleDeg Tail.up v =
         getTailAnchor cx cy (angleDeg + 180) Tail.down v) ∧
    (v = 2 → ∀ t : Tail, getTailAnchor cx cy angleDeg t v = (cx, cy)) := by
  constructor
  · intro hv
    have h180 : (angleDeg + 180) * Real.pi / 180 =
        angleDeg * Real.pi / 180 + Real.pi := by ring
    refine ⟨?_, ?_, ?_, ?_⟩
    · simp only [getTailAnchor, if_neg hv]
      simp [Real.cos_add_pi]
      ring
    · simp only [getTailAnchor, if_neg hv]
      simp [Real.sin_add_pi]
      ring
    · intro t
      simp only [getTailAnchor, if_neg hv]
      cases t <;> simp <;> ring_nf <;>
        linear_combination (6400 : ℝ) *
          Real.sin_sq_add_cos_sq (angleDeg * Real.pi * (1 / 180))
    · simp only [getTailAnchor, if_neg hv]
      simp [h180]
  · intro hv t
    simp [getTailAnchor, hv]

/-- Witness for C6 at angle 0, center (0, 0), view index 0. -/
theorem tail_anchor_opposite_witness :
    (getTailAnchor 0 0 0 Tail.up 0).1 + (getTailAnchor 0 0 0 Tail.down 0).1
      = 2 * 0 := by
  exact ((tail_anchor_opposite 0 0 0 0).1 (by decide)).1

/-- C7: contrary to the claim, the code's visibility guard shows the
cycle control over a single-variant zone in Sandbox mode: JavaScript
precedence reads the guard as
`(views.length > 1 && isSimulatorActive) || isSandBoxActive`, while the
claimed signal is `views.length > 1 && (isSimulatorActive || isSandBoxActive)`.
Zone 1 has exactly one variant, yet in Sandbox the control is shown. -/
theorem toggleVisible_sandbox_single_variant :
    (cellOrientationMap 1).length = 1 ∧
    toggleVisible (cellOrientationMap 1).length false true = true ∧
    (decide ((cellOrientationMap 1).length > 1) && (false || true)) = false := by
  decide

/-- C8: with no screen transform available, the conversion returns the
input coordinates unchanged together with the warning flag and no
exception; with an invertible transform available it returns, without
warning, the point that the screen transform maps back to the input. -/
theorem toSvgCoords_fallback (x y : ℚ) :
    toSvgCoords none x y = some ((x, y), true) ∧
    (∀ m : SvgMatrix, matrixDet m ≠ 0 →
       ∃ q : ℚ × ℚ, toSvgCoords (some m) x y = some (q, false) ∧
         matrixTransform m q.1 q.2 = (x, y)) := by
  constructor
  · rfl
  · intro m hdet
    simp only [toSvgCoords, matrixInverse, if_neg hdet]
    refine ⟨_, rfl, ?_⟩
    simp only [matrixTransform, matrixDet] at hdet ⊢
    rw [Prod.ext_iff]
    constructor
    · field_simp
      ring
    · field_simp
      ring

/-- Witness for C8 with the invertible transform
(a, b, c, d, e, f) = (2, 0, 0, 1, 7, -4) at input (3, 5). -/
theorem toSvgCoords_fallback_witness :
    ∃ q : ℚ × ℚ, toSvgCoords (some ⟨2, 0, 0, 1, 7, -4⟩) 3 5 = some (q, false) ∧
      matrixTransform ⟨2, 0, 0, 1, 7, -4⟩ q.1 q.2 = (3, 5) := by
  exact (toSvgCoords_fallback 3 5).2 ⟨2, 0, 0, 1, 7, -4⟩ (by simp [matrixDet])

/-- C9: a position update that resolves to no zone resets only the
orientation state (sweep angle 90, tail down, default display texts) and
leaves `lastCellPos`, `currentViewIndex` and the quiz fields unchanged;
consequently moving off all zones and back over the same remembered zone
resumes at the previously cycled variant index. -/
theorem update_offzone_frame
    (cells : List (Nat × Rect)) (px py : ℚ) (st : GameState)
    (hfc : findCell cells px py = none) :
    ((updateImagePreview cells px py st).lastCellPos = st.lastCellPos ∧
     (updateImagePreview cells px py st).currentViewIndex = st.currentViewIndex ∧
     (updateImagePreview cells px py st).sweepDeg = 90 ∧
     (updateImagePreview cells px py st).tailPosition = Tail.down ∧
     (updateImagePreview cells px py st).rotationDisplay = "3 o\x27clock" ∧
     (updateImagePreview cells px py st).tailDisplay = "Tail Down" ∧
     (updateImagePreview cells px py st).viewDisplay = "-" ∧
     (updateImagePreview cells px py st).score = st.score ∧
     (updateImagePreview cells px py st).currentQuestionIndex =
       st.currentQuestionIndex ∧
     (updateImagePreview cells px py st).isFeedbackActive =
       st.isFeedbackActive) ∧
    (∀ (cells2 : List (Nat × Rect)) (px2 py2 : ℚ) (p : Nat),
       st.lastCellPos = some p →
       cellOrientationMap p ≠ [] →
       findCell cells2 px2 py2 = some p →
       (updateImagePreview cells2 px2 py2
           (updateImagePreview cells px py st)).currentViewIndex =
         st.currentViewIndex) := by
  have hnone := update_none_eq cells px py st hfc
  constructor
  · rw [hnone]
    simp [resetProbe]
  · intro cells2 px2 py2 p hlast hv hfc2
    have hlast2 : (updateImagePreview cells px py st).lastCellPos = some p := by
      rw [hnone]
      simpa [resetProbe] using hlast
    have := update_some_index_same cells2 px2 py2
      (updateImagePreview cells px py st) p hfc2 hv hlast2
    rw [this, hnone]
    simp [resetProbe]

/-- Witness for C9: off zone and back over remembered zone 2 with cycled
index 1 resumes at index 1. -/
theorem update_offzone_frame_witness :
    (updateImagePreview [(2, ⟨0, 100, 0, 100⟩)] 50 50
       (updateImagePreview [] 50 50
         { initialState with lastCellPos := some 2, currentViewIndex := 1
           })).currentViewIndex = 1 := by
  exact (update_offzone_frame [] 50 50
    { initialState with lastCellPos := some 2, currentViewIndex := 1 }
    (by decide)).2 [(2, ⟨0, 100, 0, 100⟩)] 50 50 2 rfl (by decide) (by decide)

theorem viewInv_of_eq (st st2 : GameState)
    (h1 : st2.lastCellPos = st.lastCellPos)
    (h2 : st2.currentViewIndex = st.currentViewIndex) :
    ViewInv st → ViewInv st2 := by
  unfold ViewInv
  rw [h1, h2]
  exact id

theorem update_preserves_viewInv (cells : List (Nat × Rect)) (px py : ℚ)
    (st : GameState) (hinv : ViewInv st) :
    ViewInv (updateImagePreview cells px py st) := by
  cases hfc : findCell cells px py with
  | none =>
    have h := update_none_eq cells px py st hfc
    refine viewInv_of_eq st _ ?_ ?_ hinv <;> rw [h] <;> simp [resetProbe]
  | some pos =>
    by_cases hv : cellOrientationMap pos = []
    · have h := update_some_empty_eq cells px py st pos hfc hv
      refine viewInv_of_eq st _ ?_ ?_ hinv <;> rw [h]
    · have hlast := update_some_last cells px py st pos hfc hv
      unfold ViewInv
      rw [hlast]
      by_cases hsame : st.lastCellPos = some pos
      · rw [update_some_index_same cells px py st pos hfc hv hsame]
        unfold ViewInv at hinv
        rw [hsame] at hinv
        exact hinv
      · rw [update_some_index_new cells px py st pos hfc hv hsame]
        have : cellOrientationMap pos ≠ [] := hv
        cases hmap : cellOrientationMap pos with
        | nil => exact absurd hmap this
        | cons a l => simp [hmap]

/-- C10: under the precondition that cycle commands occur only while the
remembered zone has a non-empty variant list, every operation preserves
the invariant that `currentViewIndex` indexes into the remembered zone's
variant list; hence `views[currentViewIndex % views.length]` equals
`views[currentViewIndex]`, and the neutral-anchor condition
`currentViewIndex = 2` can only hold at zone 2, the one zone owning three
variants. -/
theorem view_index_invariant :
    (∀ (op : GameOp) (st : GameState), ViewInv st → cyclePre op st →
       ViewInv (applyOp op st)) ∧
    (∀ (st : GameState) (p : Nat), ViewInv st → st.lastCellPos = some p →
       (cellOrientationMap p).getD
           (st.currentViewIndex % (cellOrientationMap p).length)
           ⟨0, Tail.up, ""⟩ =
         (cellOrientationMap p).getD st.currentViewIndex ⟨0, Tail.up, ""⟩) ∧
    (∀ (st : GameState) (p : Nat), ViewInv st → st.lastCellPos = some p →
       st.currentViewIndex = 2 → p = 2) := by
  refine ⟨?_, ?_, ?_⟩
  · intro op st hinv hpre
    cases op with
    | update cells px py =>
      exact update_preserves_viewInv cells px py st hinv
    | cycle cells px py =>
      obtain ⟨p, hlast, hv⟩ := hpre cells px py rfl
      have hlen : 0 < (cellOrientationMap p).length := by
        cases hmap : cellOrientationMap p with
        | nil => exact absurd hmap hv
        | cons a l => simp
      have hbody : applyOp (GameOp.cycle cells px py) st =
          updateImagePreview cells px py
            { st with currentViewIndex :=
                (st.currentViewIndex + 1) % (cellOrientationMap p).length } := by
        simp [applyOp, toggleClick, hlast]
      rw [hbody]
      apply update_preserves_viewInv
      unfold ViewInv
      simp only [hlast]
      exact Nat.mod_lt _ hlen
    | restart =>
      unfold ViewInv
      simp [applyOp, restartClick]
  · intro st p hinv hlast
    unfold ViewInv at hinv
    rw [hlast] at hinv
    rw [Nat.mod_eq_of_lt hinv]
  · intro st p hinv hlast hidx
    unfold ViewInv at hinv
    rw [hlast, hidx] at hinv
    have hinv2 : 2 < (cellOrientationMap p).length := hinv
    unfold cellOrientationMap at hinv2
    split_ifs at hinv2 with h1 h2 h3 h4 <;> simp_all

/-- Witness for C10: a cycle at remembered zone 2 from the initial view
index preserves the invariant. -/
theorem view_index_invariant_witness :
    ViewInv (applyOp (GameOp.cycle [(2, ⟨0, 100, 0, 100⟩)] 50 50)
      { initialState with lastCellPos := some 2 }) := by
  exact view_index_invariant.1 (GameOp.cycle [(2, ⟨0, 100, 0, 100⟩)] 50 50)
    { initialState with lastCellPos := some 2 }
    (by unfold ViewInv; simp [cellOrientationMap, initialState])
    (by intro cells px py h
        cases h
        exact ⟨2, rfl, by decide⟩)

end EchoSim
